import Mathlib

/-!
Shallow embedding of the bombparty-ge game server (src/server.js) in Lean 4,
together with theorems settling the frozen claims about it.

Conventions of the embedding:
* JS numbers that are used as integers are modelled as `Int` (or `Nat` for
  indices that the code keeps non-negative); the turn timer value, which the
  code decrements by the float step 0.05, is modelled as `ℚ`.
* JS `Math.round` rounds half toward +∞, which is exactly Mathlib's `round`.
* Randomness (avatar, color, syllable, lobby-code characters) and the clock
  (`Date.now()`) are passed in as explicit parameters.
* `setTimeout` continuations are modelled as separate "deferred" functions;
  an operation's full effect is the synchronous part composed with its
  deferred part where a claim needs it.
* The dictionary `WORDS` is loaded from a data file that is not part of the
  source; it is passed as an explicit `List String` parameter.
-/

namespace BombParty

/-! ## String utilities (sanitizeText / sanitizeName, server.js lines 33-52) -/

/-- The characters removed by the `[<>&"'`+backtick]` regex in `sanitizeText`
and `sanitizeName` (34 is the double quote, 39 the apostrophe, 96 the
backtick). -/
def dangerousChars : List Char :=
  ['<', '>', '&', Char.ofNat 34, Char.ofNat 39, Char.ofNat 96]

/-- One step of the global regex replace `/<[^>]*>/g`: scanning left to
right, a `<` starts buffering; a subsequent `>` discards the buffered
characters (a complete tag), while end of input flushes them back (an
unclosed `<` is kept, matching the regex, which requires a closing `>`). -/
def removeTagsAux : List Char → Option (List Char) → List Char
  | [], none => []
  | [], some buf => buf.reverse
  | c :: cs, none =>
      if c = '<' then removeTagsAux cs (some [c]) else c :: removeTagsAux cs none
  | c :: cs, some buf =>
      if c = '>' then removeTagsAux cs none else removeTagsAux cs (some (c :: buf))

/-- `text.replace(/<[^>]*>/g, '')`. -/
def removeTags (cs : List Char) : List Char := removeTagsAux cs none

/-- JS `String.prototype.trim` on a character list. -/
def trimChars (cs : List Char) : List Char :=
  ((cs.dropWhile Char.isWhitespace).reverse.dropWhile Char.isWhitespace).reverse

/-- `sanitizeText(text, maxLength)`: strip tags, strip dangerous characters,
truncate, trim (server.js lines 34-41). -/
def sanitizeText (text : String) (maxLength : Nat) : String :=
  String.mk (trimChars
    (((removeTags text.data).filter (fun c => !dangerousChars.contains c)).take maxLength))

/-- `sanitizeName(name, maxLength)`: like `sanitizeText` but also strips
control characters and falls back to `"Guest"` (server.js lines 43-52). -/
def sanitizeName (name : String) (maxLength : Nat) : String :=
  let s := String.mk (trimChars
    ((((removeTags name.data).filter (fun c => !dangerousChars.contains c)).filter
        (fun c => !(c.toNat ≤ 31 || c.toNat = 127))).take maxLength))
  if s = "" then "Guest" else s

/-- `String.prototype.toLowerCase`, modelled with `Char.toLower`. -/
def strToLower (s : String) : String := String.mk (s.data.map Char.toLower)

/-- `xs` is a prefix of `ys` (character lists). -/
def isPrefixCh : List Char → List Char → Bool
  | [], _ => true
  | _ :: _, [] => false
  | a :: as, b :: bs => a = b && isPrefixCh as bs

/-- `ys.includes(xs)`: `xs` occurs contiguously inside `ys`. -/
def isInfixCh : List Char → List Char → Bool
  | xs, [] => xs.isEmpty
  | xs, y :: ys => isPrefixCh xs (y :: ys) || isInfixCh xs ys

/-! ## Word validation (validateWord, server.js lines 183-193) -/

/-- `validateWord(word, syllable)`: the word must have length ≥ 2, contain
the syllable (both lower-cased), and occur in the dictionary (compared
lower-cased).  The dictionary `WORDS` is the explicit `dict` parameter. -/
def validateWord (dict : List String) (word syllable : String) : Bool :=
  if word = "" ∨ word.length < 2 then false
  else
    let lowerWord := strToLower word
    let lowerSyl := strToLower syllable
    if !isInfixCh lowerSyl.data lowerWord.data then false
    else dict.any (fun w => strToLower w == lowerWord)

/-! ## List helpers mirroring the JS array operations used by the Lobby -/

/-- `arr[n]` (JS indexing returning `undefined` out of range). -/
def nth : List α → Nat → Option α
  | [], _ => none
  | a :: _, 0 => some a
  | _ :: as, n + 1 => nth as n

/-- `arr.splice(n, 1)`. -/
def eraseAt : List α → Nat → List α
  | [], _ => []
  | _ :: as, 0 => as
  | a :: as, n + 1 => a :: eraseAt as n

/-- `arr[n] = x` (in-range update). -/
def setAt : List α → Nat → α → List α
  | [], _, _ => []
  | _ :: as, 0, x => x :: as
  | a :: as, n + 1, x => a :: setAt as n x

lemma nth_lt_length {l : List α} {n : Nat} {a : α} (h : nth l n = some a) :
    n < l.length := by
  induction l generalizing n with
  | nil => cases h
  | cons b bs ih =>
    cases n with
    | zero => simp
    | succ m =>
      have := ih (n := m) h
      simpa using Nat.succ_lt_succ this

lemma nth_of_lt {l : List α} {n : Nat} (h : n < l.length) :
    ∃ a, nth l n = some a := by
  induction l generalizing n with
  | nil => simp at h
  | cons b bs ih =>
    cases n with
    | zero => exact ⟨b, rfl⟩
    | succ m => exact ih (Nat.lt_of_succ_lt_succ h)

lemma length_setAt (l : List α) (n : Nat) (a : α) :
    (setAt l n a).length = l.length := by
  induction l generalizing n with
  | nil => rfl
  | cons b bs ih =>
    cases n with
    | zero => rfl
    | succ m => simp only [setAt, List.length_cons, ih m]

lemma nth_setAt_self {l : List α} {n : Nat} (a : α) (h : n < l.length) :
    nth (setAt l n a) n = some a := by
  induction l generalizing n with
  | nil => simp at h
  | cons b bs ih =>
    cases n with
    | zero => rfl
    | succ m => exact ih (Nat.lt_of_succ_lt_succ h)

lemma length_eraseAt {l : List α} {n : Nat} (h : n < l.length) :
    (eraseAt l n).length = l.length - 1 := by
  induction l generalizing n with
  | nil => simp at h
  | cons b bs ih =>
    cases n with
    | zero => rfl
    | succ m =>
      have := ih (Nat.lt_of_succ_lt_succ h)
      simp only [eraseAt, List.length_cons, this]
      have : 0 < bs.length := Nat.lt_of_le_of_lt (Nat.zero_le m) (Nat.lt_of_succ_lt_succ h)
      omega

/-! ## Data model (server.js lines 229-262) -/

/-- A seat in a lobby's roster.  `score` and `wordsCompleted` are set by
`startGame`; the JS `(p.score || 0)` guards are the identity on the `Int`
model. -/
structure Player where
  id : String
  name : String
  avatar : String
  color : String
  lives : Int
  isConnected : Bool
  isReady : Bool
  currentInput : String
  score : Int
  wordsCompleted : Int
deriving DecidableEq

/-- Lobby settings (server.js lines 241-247). -/
structure GameSettings where
  maxPlayers : Int
  startLives : Int
  turnTime : Int
  minWordLength : Int
  isPublic : Bool
deriving DecidableEq

/-- The lobby state machine's states. -/
inductive LobbyState
  | waiting
  | playing
  | finished
deriving DecidableEq

/-- A lobby.  `timerAlive` models whether the `setInterval` turn timer is
currently registered (`this.timer !== null` after a `clearInterval`). -/
structure Lobby where
  code : String
  name : String
  hostId : String
  originalHostId : String
  players : List Player
  state : LobbyState
  settings : GameSettings
  currentTurnIndex : Nat
  currentSyllable : String
  usedWords : List String
  timerAlive : Bool
  timerValue : ℚ
  lastActivity : Nat
  turnStartTime : Nat
  turnLocked : Bool
deriving DecidableEq

/-- `getAlivePlayers()` (server.js lines 369-371). -/
def getAlivePlayers (lb : Lobby) : List Player :=
  lb.players.filter (fun p => decide (0 < p.lives))

/-- `endGame()`'s synchronous part (server.js lines 557-584): stop the timer
and move to `finished`.  (The rankings broadcast and the delayed reset to
`waiting` do not affect any claim.) -/
def endGameSync (lb : Lobby) : Lobby :=
  { lb with timerAlive := false, state := LobbyState.finished }

/-! ## Lobby operations -/

/-- The bounded skip loop of `nextTurn` (server.js lines 402-406): advance
`currentTurnIndex` past players with `lives ≤ 0`, at most `players.length`
times. -/
def skipDead (ps : List Player) : Nat → Nat → Nat
  | 0, cti => cti
  | fuel + 1, cti =>
      match nth ps cti with
      | some p => if p.lives ≤ 0 then skipDead ps fuel ((cti + 1) % ps.length) else cti
      | none => cti

/-- `nextTurn()` (server.js lines 398-426): unlock the turn, skip dead
players, draw a syllable (`syl` parameter), reset and restart the timer. -/
def nextTurn (now : Nat) (syl : String) (lb : Lobby) : Lobby :=
  { lb with
    turnLocked := false,
    currentTurnIndex := skipDead lb.players lb.players.length lb.currentTurnIndex,
    currentSyllable := syl,
    timerValue := (lb.settings.turnTime : ℚ),
    turnStartTime := now,
    lastActivity := now,
    timerAlive := true }

/-- `handleTimeout()`'s synchronous part (server.js lines 428-441): clear the
timer, lock the turn, and if the current seat exists decrement its lives and
clear its input. -/
def handleTimeoutSync (lb : Lobby) : Lobby :=
  let lb1 := { lb with timerAlive := false, turnLocked := true }
  match nth lb.players lb.currentTurnIndex with
  | none => lb1
  | some loser =>
      { lb1 with
        players := setAt lb.players lb.currentTurnIndex
          { loser with lives := loser.lives - 1, currentInput := "" } }

/-- `handleTimeout()`'s deferred part (server.js lines 443-452, the 1500 ms
`setTimeout`): end the game if at most one player is alive, else advance the
turn pointer and start the next turn. -/
def handleTimeoutDeferred (now : Nat) (syl : String) (lb : Lobby) : Lobby :=
  if (getAlivePlayers lb).length ≤ 1 then endGameSync lb
  else nextTurn now syl
    { lb with currentTurnIndex := (lb.currentTurnIndex + 1) % lb.players.length }

/-- `handleTimeout()` in full: synchronous part followed by its deferred
continuation (assuming no intervening event). -/
def handleTimeoutFull (now : Nat) (syl : String) (lb : Lobby) : Lobby :=
  handleTimeoutDeferred now syl (handleTimeoutSync lb)

/-- `addPlayer(playerId, playerName)` (server.js lines 293-321).  The random
avatar and color are parameters.  Note the capacity check precedes the
already-seated check, exactly as in the source. -/
def addPlayer (now : Nat) (avatar color : String) (lb : Lobby)
    (playerId playerName : String) : Bool × Lobby :=
  if (lb.settings.maxPlayers : Int) ≤ lb.players.length then (false, lb)
  else if lb.players.any (fun p => p.id == playerId) then (true, lb)
  else
    let player : Player :=
      { id := playerId, name := sanitizeName playerName 20, avatar := avatar,
        color := color, lives := lb.settings.startLives, isConnected := true,
        isReady := false, currentInput := "", score := 0, wordsCompleted := 0 }
    let lb1 := { lb with players := lb.players ++ [player], lastActivity := now }
    (true, if playerId = lb.originalHostId then { lb1 with hostId := playerId } else lb1)

/-- `players.findIndex(p => p.id === playerId)` returning `none` for `-1`. -/
def findIndex (pid : String) : List Player → Option Nat
  | [] => none
  | p :: ps => if p.id = pid then some 0 else (findIndex pid ps).map (· + 1)

lemma findIndex_lt {pid : String} {l : List Player} {i : Nat}
    (h : findIndex pid l = some i) : i < l.length := by
  induction l generalizing i with
  | nil => cases h
  | cons p ps ih =>
    unfold findIndex at h
    split_ifs at h with hp
    · cases h
      simp
    · rcases Option.map_eq_some'.mp h with ⟨j, hj, rfl⟩
      have := ih hj
      simpa using Nat.succ_lt_succ this

/-- The host reassignment in `removePlayer` (server.js lines 333-338): the
departing host is replaced by the first remaining player, unless the
departing player was the original host (who keeps the title). -/
def newHostId (lb : Lobby) (playerId : String) (players1 : List Player) : String :=
  if lb.hostId = playerId ∧ 0 < players1.length ∧ playerId ≠ lb.originalHostId then
    ((players1.head?).map Player.id).getD lb.hostId
  else lb.hostId

/-- The `currentTurnIndex` fix-up in `removePlayer` (server.js lines
340-345): an index before the active one shifts it down by one; removing
the active player wraps it modulo `max 1 newLen`. -/
def removeCti (cti index newLen : Nat) : Nat :=
  if index < cti then cti - 1
  else if index = cti then cti % max 1 newLen
  else cti

/-- `removePlayer(playerId)` (server.js lines 323-351): splice the seat out,
reassign the host if needed, and while `playing` fix up `currentTurnIndex`
and end the game if at most one live player remains. -/
def removePlayer (now : Nat) (lb : Lobby) (playerId : String) : Lobby :=
  match findIndex playerId lb.players with
  | none => lb
  | some index =>
      if lb.state = LobbyState.playing then
        let lb2 : Lobby :=
          { lb with
            players := eraseAt lb.players index,
            hostId := newHostId lb playerId (eraseAt lb.players index),
            lastActivity := now,
            currentTurnIndex := removeCti lb.currentTurnIndex index
              (eraseAt lb.players index).length }
        if (getAlivePlayers lb2).length ≤ 1 then endGameSync lb2 else lb2
      else
        { lb with
          players := eraseAt lb.players index,
          hostId := newHostId lb playerId (eraseAt lb.players index),
          lastActivity := now }

/-- `startGame()` (server.js lines 373-396): keep only ready-and-connected
players, require at least two of them, reset the per-game fields and start
the first turn. -/
def startGame (syl : String) (now : Nat) (lb : Lobby) : Bool × Lobby :=
  let ready := lb.players.filter (fun p => p.isReady && p.isConnected)
  if ready.length < 2 then (false, lb)
  else
    let ready2 := ready.map (fun p =>
      { p with lives := lb.settings.startLives, currentInput := "",
               score := 0, wordsCompleted := 0 })
    (true, nextTurn now syl
      { lb with players := ready2, state := LobbyState.playing,
                usedWords := [], currentTurnIndex := 0 })

/-- The `game:start` socket handler (server.js lines 995-1014): only the host
may start, and the roster must hold at least two players, before
`startGame()` runs. -/
def gameStart (requesterId syl : String) (now : Nat) (lb : Lobby) : Bool × Lobby :=
  if lb.hostId ≠ requesterId then (false, lb)
  else if lb.players.length < 2 then (false, lb)
  else startGame syl now lb

/-! ## Word submission (submitWord, server.js lines 455-529) -/

/-- The result object of `submitWord`: `{success: true}` or
`{success: false, reason}`. -/
inductive SubmitResult
  | success
  | failure (reason : String)
deriving DecidableEq

/-- The rejection reason for a word that fails `validateWord`
(`"Invalid word or doesn't contain syllable"`). -/
def invalidWordReason : String :=
  "Invalid word or doesn" ++ String.singleton (Char.ofNat 39) ++ "t contain syllable"

/-- The normalized form of a submitted word:
`sanitizeText(word, 50).toLowerCase()`. -/
def normalizeWord (w : String) : String := strToLower (sanitizeText w 50)

/-- JS `Math.round`: round half toward +∞, i.e. `⌊q + 1/2⌋`.  Defined via
`Rat.floor` so that it evaluates. -/
def jsRound (q : ℚ) : Int := (q + 1 / 2).floor

/-- `jsRound` agrees with Mathlib's `round` (which also rounds half up). -/
theorem jsRound_eq_round (q : ℚ) : jsRound q = round q := by
  rw [round_eq, jsRound, Rat.floor_def', Rat.floor_def]

/-- The guard chain of `submitWord(playerId, word)` (server.js lines
455-495), in source order, returning the rejection reason or `none` for an
accepted word. -/
def submitCheck (dict : List String) (lb : Lobby) (playerId word : String) :
    Option String :=
  if lb.state ≠ LobbyState.playing then some "Game not in progress"
  else if lb.turnLocked then some "Too late! Time ran out"
  else
    match nth lb.players lb.currentTurnIndex with
    | none => some "Not your turn"
    | some currentPlayer =>
      if currentPlayer.id ≠ playerId then some "Not your turn"
      else if currentPlayer.lives ≤ 0 then some "You are eliminated"
      else if ¬ currentPlayer.isConnected then some "Player disconnected"
      else if ((normalizeWord word).length : Int) < lb.settings.minWordLength then
        some "Word too short"
      else if lb.usedWords.contains (normalizeWord word) then
        some "Word already used"
      else if ¬ validateWord dict (normalizeWord word) lb.currentSyllable then
        some invalidWordReason
      else none

/-- The score the code computes for an accepted word (server.js lines
503-515): base 10 per letter, speed bonus `Math.round(timeRemaining /
turnTime * 50)` with `timeRemaining = Math.max(0, timerValue)`, and length
bonus `Math.max(0, (wordLength - 5) * 5)`. -/
def codeScore (wordLength : Nat) (timerValue : ℚ) (turnTime : Int) : Int :=
  (wordLength : Int) * 10 +
    jsRound (max 0 timerValue / (turnTime : ℚ) * 50) +
    max 0 (((wordLength : Int) - 5) * 5)

/-- The mutation performed by an accepted `submitWord` (server.js lines
497-521): record the word, clear the input, cancel the timer, accumulate
score and word count. -/
def submitAccept (now : Nat) (lb : Lobby) (word : String) : Lobby :=
  match nth lb.players lb.currentTurnIndex with
  | none => lb
  | some currentPlayer =>
      { lb with
        usedWords := normalizeWord word :: lb.usedWords,
        lastActivity := now,
        timerAlive := false,
        players := setAt lb.players lb.currentTurnIndex
          { currentPlayer with
            currentInput := "",
            score := currentPlayer.score +
              codeScore (normalizeWord word).length lb.timerValue lb.settings.turnTime,
            wordsCompleted := currentPlayer.wordsCompleted + 1 } }

/-- `submitWord(playerId, word)` (server.js lines 455-529), synchronous
part: the guard chain, then on acceptance the mutation.  The 500 ms
deferred turn advance is `submitWordDeferred`. -/
def submitWord (dict : List String) (now : Nat) (lb : Lobby)
    (playerId word : String) : SubmitResult × Lobby :=
  match submitCheck dict lb playerId word with
  | some reason => (.failure reason, lb)
  | none => (.success, submitAccept now lb word)

/-- The 500 ms deferred continuation of an accepted submission (server.js
lines 523-526): advance the turn pointer and start the next turn. -/
def submitWordDeferred (now : Nat) (syl : String) (lb : Lobby) : Lobby :=
  nextTurn now syl
    { lb with currentTurnIndex := (lb.currentTurnIndex + 1) % lb.players.length }

/-- `submitWord` in full: the synchronous part, followed on success by the
deferred turn advance (assuming no intervening event). -/
def submitWordFull (dict : List String) (now : Nat) (sylNext : String) (nowAdv : Nat)
    (lb : Lobby) (playerId word : String) : SubmitResult × Lobby :=
  match submitWord dict now lb playerId word with
  | (.success, lb1) => (.success, submitWordDeferred nowAdv sylNext lb1)
  | (r, lb1) => (r, lb1)

/-! ## Settings update (socket handler `lobby:settings`, server.js 976-992) -/

/-- A number as JS can store it into `lobby.settings`: a finite number
(modelled as an integer) or `NaN`.  The handler has no type guard on the
numeric fields, so `Math.min(hi, Math.max(lo, v))` of a truthy
non-numeric request value is `NaN`, and `NaN` is assigned as-is. -/
inductive JsNumber where
  | num (v : Int)
  | nan
deriving DecidableEq

/-- A client-supplied value for one numeric settings field, sorted by how
`if (settings.f) ... Math.max(lo, settings.f)` treats it:
`absent` — the field is missing or falsy (`undefined`, `null`, `false`,
the number `0`, the empty string, `NaN`), so the truthiness guard skips
the assignment;
`numeric v` — a truthy value that coerces to the finite number `v` (a
nonzero number, `true` giving 1, or a numeric string such as `"7"` or
`"0"`; finite numbers are modelled as integers);
`nonNumeric` — a truthy value that does not coerce to a number (such as
the string `"abc"` or a plain object), which `Math.max` turns into `NaN`. -/
inductive SettingsVal where
  | absent
  | numeric (v : Int)
  | nonNumeric
deriving DecidableEq

/-- A client settings request as received from the socket. -/
structure SettingsRequest where
  maxPlayers : SettingsVal
  startLives : SettingsVal
  turnTime : SettingsVal
  minWordLength : SettingsVal
  isPublic : Option Bool
deriving DecidableEq

/-- The `lobby.settings` object as the `lobby:settings` handler can leave
it: each numeric field may hold `NaN` after a non-numeric request value.
(`GameSettings`, used by the game-logic model, is the well-formed
`num`-only picture of this object.) -/
structure SettingsState where
  maxPlayers : JsNumber
  startLives : JsNumber
  turnTime : JsNumber
  minWordLength : JsNumber
  isPublic : Bool
deriving DecidableEq

/-- `if (settings.f) lobby.settings.f = Math.min(hi, Math.max(lo, settings.f))`
for one numeric field: a falsy value is skipped, a truthy numeric value is
clamped into `[lo, hi]`, and a truthy non-numeric value is stored as
`NaN`. -/
def applyNumField (cur : JsNumber) (req : SettingsVal) (lo hi : Int) : JsNumber :=
  match req with
  | .absent => cur
  | .numeric v => JsNumber.num (min hi (max lo v))
  | .nonNumeric => JsNumber.nan

/-- The body of the `lobby:settings` handler after the host check. -/
def applySettings (req : SettingsRequest) (s : SettingsState) : SettingsState :=
  { maxPlayers := applyNumField s.maxPlayers req.maxPlayers 2 12,
    startLives := applyNumField s.startLives req.startLives 1 5,
    turnTime := applyNumField s.turnTime req.turnTime 5 30,
    minWordLength := applyNumField s.minWordLength req.minWordLength 2 5,
    isPublic := match req.isPublic with | some b => b | none => s.isPublic }

/-- The `lobby:settings` handler (server.js lines 976-992) acting on the
lobby's settings object: a request from anyone but the host is dropped. -/
def lobbySettingsEvent (hostId requesterId : String) (req : SettingsRequest)
    (s : SettingsState) : SettingsState :=
  if hostId = requesterId then applySettings req s else s

/-! ## Rate limiter (isRateLimited, server.js lines 57-80) -/

/-- The `while (timestamps.length > 0 && timestamps[0] < now - windowMs)
timestamps.shift()` loop: drop leading timestamps strictly older than the
window. -/
def pruneOld (cutoff : Int) : List Int → List Int
  | [] => []
  | t :: ts => if t < cutoff then pruneOld cutoff ts else t :: ts

/-- `isRateLimited(socketId, event, maxRequests, windowMs)` for one
`(socketId, event)` key whose recorded timestamps are `timestamps`.  Returns
the decision together with the updated timestamp list. -/
def isRateLimited (now windowMs : Int) (maxRequests : Nat)
    (timestamps : List Int) : Bool × List Int :=
  let pruned := pruneOld (now - windowMs) timestamps
  if maxRequests ≤ pruned.length then (true, pruned)
  else (false, pruned ++ [now])

/-! ## Lobby creation (generateLobbyCode / constructor, server.js 161-262) -/

/-- The code alphabet `'ABCDEFGHJKLMNPQRSTUVWXYZ23456789'`. -/
def lobbyCodeAlphabet : List Char :=
  ['A', 'B', 'C', 'D', 'E', 'F', 'G', 'H', 'J', 'K', 'L', 'M', 'N', 'P', 'Q',
   'R', 'S', 'T', 'U', 'V', 'W', 'X', 'Y', 'Z', '2', '3', '4', '5', '6', '7',
   '8', '9']

/-- `generateLobbyCode()` (server.js lines 161-168): six random characters
from the alphabet.  The six random draws are the `rand` parameter. -/
def generateLobbyCode (rand : Fin 6 → Fin 32) : String :=
  String.mk (List.ofFn (fun i : Fin 6 => lobbyCodeAlphabet.getD (rand i).val 'A'))

/-- The default settings set by the `Lobby` constructor. -/
def defaultSettings (isPublic : Bool) : GameSettings :=
  { maxPlayers := 8, startLives := 3, turnTime := 10, minWordLength := 2,
    isPublic := isPublic }

/-- The `Lobby` constructor (server.js lines 230-262).  The code's six
random draws are the `rand` parameter; note that the constructor consults
no registry of existing lobbies. -/
def createLobby (rand : Fin 6 → Fin 32) (hostId hostName lobbyName : String)
    (isPublic : Bool) (now : Nat) : Lobby :=
  let safeLobbyName := sanitizeName lobbyName 30
  let safeHostName := sanitizeName hostName 20
  { code := generateLobbyCode rand,
    name := if safeLobbyName = "" then
        safeHostName ++ String.singleton (Char.ofNat 39) ++ "s Lobby"
      else safeLobbyName,
    hostId := hostId,
    originalHostId := hostId,
    players := [],
    state := LobbyState.waiting,
    settings := defaultSettings isPublic,
    currentTurnIndex := 0,
    currentSyllable := "",
    usedWords := [],
    timerAlive := false,
    timerValue := 0,
    lastActivity := now,
    turnStartTime := 0,
    turnLocked := false }

/-- The registry `lobbies.set(lobby.id, lobby)`: live lobbies as a list. -/
def registryAdd (reg : List Lobby) (lb : Lobby) : List Lobby := reg ++ [lb]

/-- All live lobbies carry pairwise distinct codes. -/
def codesUnique (reg : List Lobby) : Prop :=
  reg.Pairwise (fun a b => a.code ≠ b.code)

/-! ## Concrete fixtures used by the witnesses -/

/-- A concrete seated, ready, connected player. -/
def wP1 : Player :=
  { id := "p1", name := "Ann", avatar := "A", color := "red", lives := 3,
    isConnected := true, isReady := true, currentInput := "", score := 0,
    wordsCompleted := 0 }

/-- A second concrete player. -/
def wP2 : Player := { wP1 with id := "p2", name := "Ben", color := "blue" }

/-- A concrete dictionary. -/
def wDict : List String := ["batata", "tato", "ha"]

/-- A concrete mid-game lobby: two players, `p1` to move on syllable `ta`,
5 of 10 seconds remaining. -/
def wLobby : Lobby :=
  { code := "ABCDEF", name := "Room", hostId := "p1", originalHostId := "p1",
    players := [wP1, wP2], state := LobbyState.playing,
    settings := { maxPlayers := 8, startLives := 3, turnTime := 10,
                  minWordLength := 2, isPublic := true },
    currentTurnIndex := 0, currentSyllable := "ta", usedWords := [],
    timerAlive := true, timerValue := 5, lastActivity := 0, turnStartTime := 0,
    turnLocked := false }

/-! ## The acceptance conditions of the specification (claim C1) -/

/-- The specification's acceptance conditions for a submission, stated the
way the spec states them: game `playing`, turn not locked, submitter is the
seated active player with `lives > 0` and connected, and the normalized word
is long enough, fresh, contains the syllable case-insensitively, and is in
the dictionary (case-insensitively). -/
def acceptConditions (dict : List String) (lb : Lobby) (pid w : String) : Prop :=
  lb.state = LobbyState.playing ∧
  lb.turnLocked = false ∧
  (∃ p, nth lb.players lb.currentTurnIndex = some p ∧ p.id = pid ∧ 0 < p.lives ∧
    p.isConnected = true) ∧
  lb.settings.minWordLength ≤ ((normalizeWord w).length : Int) ∧
  lb.usedWords.contains (normalizeWord w) = false ∧
  isInfixCh (strToLower lb.currentSyllable).data (strToLower (normalizeWord w)).data = true ∧
  dict.any (fun d => strToLower d == strToLower (normalizeWord w)) = true

/-- For a word of length at least two, `validateWord` is exactly the
conjunction of the syllable-containment and dictionary checks. -/
lemma validateWord_eq_of_len (dict : List String) (w syl : String)
    (hlen : 2 ≤ w.length) :
    validateWord dict w syl =
      (isInfixCh (strToLower syl).data (strToLower w).data &&
        dict.any (fun d => strToLower d == strToLower w)) := by
  have hne : ¬ (w = "" ∨ w.length < 2) := by
    rintro (h | h)
    · rw [h] at hlen
      simp at hlen
    · omega
  unfold validateWord
  rw [if_neg hne]
  rcases hinf : isInfixCh (strToLower syl).data (strToLower w).data with _ | _ <;>
    simp [hinf]

/-- The guard chain accepts exactly when the specification's acceptance
conditions hold, provided `minWordLength ≥ 2` (which the server enforces:
the default is 2 and updates clamp into [2,5]). -/
lemma submitCheck_none_iff (dict : List String) (lb : Lobby)
    (pid w : String) (hmin : 2 ≤ lb.settings.minWordLength) :
    submitCheck dict lb pid w = none ↔ acceptConditions dict lb pid w := by
  unfold submitCheck acceptConditions
  by_cases h1 : lb.state = LobbyState.playing
  swap
  · rw [if_pos (by exact h1)]
    simp [h1]
  rw [if_neg (by simpa using h1)]
  by_cases h2 : lb.turnLocked = true
  · rw [if_pos h2]
    simp [h2]
  rw [if_neg h2]
  have h2' : lb.turnLocked = false := by
    cases hb : lb.turnLocked
    · rfl
    · exact absurd hb h2
  rcases hg : nth lb.players lb.currentTurnIndex with _ | p
  · simp
  dsimp only
  by_cases h3 : p.id = pid
  swap
  · rw [if_pos (by exact h3)]
    constructor
    · intro hc
      cases hc
    · rintro ⟨_, _, ⟨q, hq, hqid, _⟩, _⟩
      cases hq
      exact (h3 hqid).elim
  rw [if_neg (by simpa using h3)]
  by_cases h4 : p.lives ≤ 0
  · rw [if_pos h4]
    constructor
    · intro hc
      cases hc
    · rintro ⟨_, _, ⟨q, hq, _, hql, _⟩, _⟩
      cases hq
      omega
  rw [if_neg h4]
  by_cases h5 : p.isConnected = true
  swap
  · rw [if_pos h5]
    constructor
    · intro hc
      cases hc
    · rintro ⟨_, _, ⟨q, hq, _, _, hqc⟩, _⟩
      cases hq
      exact (h5 hqc).elim
  rw [if_neg (by simpa using h5)]
  by_cases h6 : ((normalizeWord w).length : Int) < lb.settings.minWordLength
  · rw [if_pos h6]
    constructor
    · intro hc
      cases hc
    · rintro ⟨_, _, _, hlen, _⟩
      omega
  rw [if_neg h6]
  by_cases h7 : lb.usedWords.contains (normalizeWord w) = true
  · rw [if_pos h7]
    constructor
    · intro hc
      cases hc
    · rintro ⟨_, _, _, _, hused, _⟩
      rw [hused] at h7
      cases h7
  rw [if_neg h7]
  have h7' : lb.usedWords.contains (normalizeWord w) = false := by
    cases hb : lb.usedWords.contains (normalizeWord w)
    · rfl
    · exact absurd hb h7
  have hlen : lb.settings.minWordLength ≤ ((normalizeWord w).length : Int) := by omega
  have h2len : 2 ≤ (normalizeWord w).length := by
    have := hmin.trans hlen
    exact_mod_cast this
  rw [validateWord_eq_of_len dict _ _ h2len]
  by_cases h8 : (isInfixCh (strToLower lb.currentSyllable).data
      (strToLower (normalizeWord w)).data &&
      dict.any (fun d => strToLower d == strToLower (normalizeWord w))) = true
  · rw [if_neg (by simp [h8])]
    rcases Bool.and_eq_true_iff.mp h8 with ⟨hinf, hdict⟩
    constructor
    · intro _
      exact ⟨h1, h2', ⟨p, rfl, h3, by omega, h5⟩, hlen, h7', hinf, hdict⟩
    · intro _
      rfl
  · rw [if_pos (by simpa using h8)]
    constructor
    · intro hc
      cases hc
    · rintro ⟨_, _, _, _, _, hinf, hdict⟩
      exact (h8 (by rw [hinf, hdict]; rfl)).elim

/-- The two shapes of a `submitWord` result. -/
lemma submitWord_eq (dict : List String) (now : Nat) (lb : Lobby)
    (pid w : String) :
    submitWord dict now lb pid w =
      (match submitCheck dict lb pid w with
       | some reason => (SubmitResult.failure reason, lb)
       | none => (SubmitResult.success, submitAccept now lb w)) := rfl

/-- Success of `submitWord` is acceptance by the guard chain. -/
lemma submitWord_succ_check (dict : List String) (now : Nat) (lb : Lobby)
    (pid w : String) :
    (submitWord dict now lb pid w).1 = SubmitResult.success ↔
      submitCheck dict lb pid w = none := by
  rw [submitWord_eq]
  rcases h : submitCheck dict lb pid w with _ | r <;> simp

/-- Every rejecting branch of `submitWord` returns the lobby unchanged. -/
lemma submitWord_fail_eq (dict : List String) (now : Nat) (lb : Lobby)
    (pid w : String)
    (h : (submitWord dict now lb pid w).1 ≠ SubmitResult.success) :
    (submitWord dict now lb pid w).2 = lb := by
  rw [submitWord_eq] at h ⊢
  rcases hc : submitCheck dict lb pid w with _ | r
  · rw [hc] at h
    simp at h
  · rfl

/-- Acceptance requires an unlocked, playing turn with a seated player. -/
lemma submitCheck_none_parts (dict : List String) (lb : Lobby)
    (pid w : String) (h : submitCheck dict lb pid w = none) :
    lb.state = LobbyState.playing ∧ lb.turnLocked = false ∧
    lb.currentTurnIndex < lb.players.length := by
  unfold submitCheck at h
  by_cases h1 : lb.state = LobbyState.playing
  swap
  · rw [if_pos (by exact h1)] at h
    cases h
  rw [if_neg (by simpa using h1)] at h
  by_cases h2 : lb.turnLocked = true
  · rw [if_pos h2] at h
    cases h
  rw [if_neg h2] at h
  rcases hg : nth lb.players lb.currentTurnIndex with _ | p
  · rw [hg] at h
    cases h
  refine ⟨h1, ?_, nth_lt_length hg⟩
  cases hb : lb.turnLocked
  · rfl
  · exact absurd hb h2

/-- The state components `submitAccept` leaves alone or sets. -/
lemma submitAccept_parts (now : Nat) (lb : Lobby) (w : String) :
    (submitAccept now lb w).state = lb.state ∧
    (submitAccept now lb w).turnLocked = lb.turnLocked ∧
    (submitAccept now lb w).currentTurnIndex = lb.currentTurnIndex ∧
    (submitAccept now lb w).players.length = lb.players.length ∧
    (submitAccept now lb w).settings = lb.settings := by
  unfold submitAccept
  rcases nth lb.players lb.currentTurnIndex with _ | p
  · exact ⟨rfl, rfl, rfl, rfl, rfl⟩
  · exact ⟨rfl, rfl, rfl, by simp [length_setAt], rfl⟩

/-- `submitAccept` cancels the turn timer. -/
lemma submitAccept_timer (now : Nat) (lb : Lobby) (w : String)
    (hlt : lb.currentTurnIndex < lb.players.length) :
    (submitAccept now lb w).timerAlive = false := by
  unfold submitAccept
  rcases nth_of_lt hlt with ⟨p, hp⟩
  rw [hp]

/-! ## Claim C1: acceptance of a submission -/

/-- C1: a submission `submitWord(playerId, word)` is accepted (returns
success) if and only if: the lobby is `playing`, `turnLocked` is false, the
submitter is the seated player at `currentTurnIndex` with `lives > 0` and
`isConnected`, and the normalized (sanitized, lower-cased) word is at least
`minWordLength` long, not already in `usedWords`, contains
`currentSyllable` case-insensitively, and is in the dictionary
(`acceptConditions`).  The hypothesis `minWordLength ≥ 2` is the server's
own invariant: the constructor default is 2 and settings updates clamp the
field into [2, 5]. -/
theorem submitWord_accepted_iff_spec (dict : List String) (now : Nat)
    (lb : Lobby) (pid w : String) (hmin : 2 ≤ lb.settings.minWordLength) :
    (submitWord dict now lb pid w).1 = SubmitResult.success ↔
      acceptConditions dict lb pid w := by
  rw [submitWord_succ_check]
  exact submitCheck_none_iff dict lb pid w hmin

/-- Witness for C1 at a concrete accepted submission. -/
theorem submitWord_accepted_iff_spec_witness :
    (submitWord wDict 0 wLobby "p1" "batata").1 = SubmitResult.success ↔
      acceptConditions wDict wLobby "p1" "batata" :=
  submitWord_accepted_iff_spec wDict 0 wLobby "p1" "batata" (by decide)

/-! ## Claim C7: rejected submissions mutate nothing -/

/-- C7: every rejected submission returns a failure carrying a reason code
and leaves the lobby record — `usedWords`, scores, lives,
`currentTurnIndex`, `turnLocked`, the timer, `lastActivity`, everything —
unchanged. -/
theorem submitWord_reject_frame (dict : List String) (now : Nat) (lb : Lobby)
    (pid w : String)
    (h : (submitWord dict now lb pid w).1 ≠ SubmitResult.success) :
    (∃ reason, (submitWord dict now lb pid w).1 = SubmitResult.failure reason) ∧
    (submitWord dict now lb pid w).2 = lb := by
  refine ⟨?_, submitWord_fail_eq dict now lb pid w h⟩
  rcases hr : (submitWord dict now lb pid w).1 with _ | r
  · exact absurd hr h
  · exact ⟨r, rfl⟩

/-- Witness for C7: a rejected out-of-turn submission at a concrete lobby. -/
theorem submitWord_reject_frame_witness :
    (∃ reason, (submitWord wDict 0 wLobby "p2" "batata").1 =
      SubmitResult.failure reason) ∧
    (submitWord wDict 0 wLobby "p2" "batata").2 = wLobby :=
  submitWord_reject_frame wDict 0 wLobby "p2" "batata" (by decide)

/-! ## Claim C4: the score formula -/

/-- The specification's score formula: `10·L + round(50·T/M) + max(0,(L−5)·5)`
for a word of length `L` with time remaining `T` out of turn time `M`. -/
def specScore (L : Nat) (T M : ℚ) : Int :=
  10 * L + round (50 * T / M) + max 0 (((L : Int) - 5) * 5)

/-- The code's score expression equals the specification's formula, with
`T = max 0 timerValue` (the code's `timeRemaining`). -/
lemma codeScore_eq_spec (L : Nat) (tv : ℚ) (tt : Int) :
    codeScore L tv tt = specScore L (max 0 tv) (tt : ℚ) := by
  unfold codeScore specScore
  rw [jsRound_eq_round]
  have h1 : ((L : Int) * 10) = 10 * (L : Int) := by ring
  have h2 : max 0 tv / (tt : ℚ) * 50 = 50 * max 0 tv / (tt : ℚ) := by ring
  rw [h1, h2]

lemma round_fifty_example : round ((50 : ℚ) * 5 / 10) = 25 := by
  have h : (50 : ℚ) * 5 / 10 = ((25 : Int) : ℚ) := by norm_num
  rw [h, round_intCast]

/-- C4: an accepted submission adds exactly
`10·L + round(50·T/M) + max(0,(L−5)·5)` to the submitting player's score,
where `L` is the normalized word's length, `T = max 0 timerValue` the time
remaining and `M = turnTime`; it also clears the player's input and
increments `wordsCompleted`. -/
theorem submitWord_score_spec (dict : List String) (now : Nat) (lb : Lobby)
    (pid w : String) (p : Player)
    (hp : nth lb.players lb.currentTurnIndex = some p)
    (hsucc : (submitWord dict now lb pid w).1 = SubmitResult.success) :
    nth (submitWord dict now lb pid w).2.players lb.currentTurnIndex =
      some { p with
        currentInput := "",
        score := p.score + specScore (normalizeWord w).length
          (max 0 lb.timerValue) (lb.settings.turnTime : ℚ),
        wordsCompleted := p.wordsCompleted + 1 } := by
  have hc := (submitWord_succ_check dict now lb pid w).mp hsucc
  rw [submitWord_eq, hc]
  unfold submitAccept
  rw [hp]
  have hlt := nth_lt_length hp
  rw [nth_setAt_self _ hlt, codeScore_eq_spec]

/-- Witness for C4: the concrete submission of the spec's worked example
(`L = 6`, `T = 5`, `M = 10` giving `60 + 25 + 5 = 90`). -/
theorem submitWord_score_spec_witness :
    specScore 6 5 10 = 90 ∧
    nth (submitWord wDict 0 wLobby "p1" "batata").2.players
        wLobby.currentTurnIndex =
      some { wP1 with
        currentInput := "",
        score := wP1.score + specScore (normalizeWord "batata").length
          (max 0 wLobby.timerValue) (wLobby.settings.turnTime : ℚ),
        wordsCompleted := wP1.wordsCompleted + 1 } := by
  constructor
  · unfold specScore
    rw [round_fifty_example]
    norm_num
  · exact submitWord_score_spec wDict 0 wLobby "p1" "batata" wP1 (by rfl) (by decide)

/-! ## Claim C3: the turn-index invariant -/

/-- The claim's invariant: while `playing` with a non-empty roster,
`currentTurnIndex` addresses a seat. -/
def turnInv (lb : Lobby) : Prop :=
  lb.state = LobbyState.playing → lb.players ≠ [] →
    lb.currentTurnIndex < lb.players.length

/-- A slightly strengthened, inductive form of the invariant: it fixes the
index at 0 when the roster is momentarily empty (`max 1` covers both). -/
def turnInvS (lb : Lobby) : Prop :=
  lb.state = LobbyState.playing →
    lb.currentTurnIndex < max 1 lb.players.length

lemma turnInvS_imp_turnInv (lb : Lobby) (h : turnInvS lb) : turnInv lb := by
  intro hs hne
  have h1 := h hs
  have h2 : 0 < lb.players.length := List.length_pos.mpr hne
  omega

lemma skipDead_lt (ps : List Player) :
    ∀ (fuel cti : Nat), cti < ps.length → skipDead ps fuel cti < ps.length := by
  intro fuel
  induction fuel with
  | zero =>
    intro cti h
    simpa [skipDead] using h
  | succ n ih =>
    intro cti h
    have hlen : 0 < ps.length := by omega
    unfold skipDead
    rcases hg : nth ps cti with _ | p
    · exact h
    · dsimp only
      by_cases hl : p.lives ≤ 0
      · rw [if_pos hl]
        exact ih _ (Nat.mod_lt _ hlen)
      · rw [if_neg hl]
        exact h

lemma nextTurn_invS (now : Nat) (syl : String) (lb : Lobby) (h : turnInvS lb) :
    turnInvS (nextTurn now syl lb) := by
  intro hs
  show skipDead lb.players lb.players.length lb.currentTurnIndex <
    max 1 lb.players.length
  have hh := h hs
  rcases Nat.eq_zero_or_pos lb.players.length with h0 | h0
  · rw [h0] at hh ⊢
    simpa [skipDead] using hh
  · have hcti : lb.currentTurnIndex < lb.players.length := by omega
    have := skipDead_lt lb.players lb.players.length lb.currentTurnIndex hcti
    omega

lemma addPlayer_invS (now : Nat) (av col : String) (lb : Lobby)
    (pid pn : String) (h : turnInvS lb) :
    turnInvS (addPlayer now av col lb pid pn).2 := by
  unfold addPlayer
  split_ifs with h1 h2 h3 <;>
    first
      | exact h
      | (intro hs
         have := h hs
         simp only [List.length_append, List.length_cons, List.length_nil]
         omega)

lemma removeCti_lt (cti index newLen : Nat) (hin : cti < max 1 (newLen + 1))
    (hidx : index < newLen + 1) : removeCti cti index newLen < max 1 newLen := by
  unfold removeCti
  split_ifs with h1 h2
  · omega
  · exact Nat.mod_lt _ (by omega)
  · omega

lemma removePlayer_invS (now : Nat) (lb : Lobby) (pid : String)
    (h : turnInvS lb) : turnInvS (removePlayer now lb pid) := by
  unfold removePlayer
  rcases hf : findIndex pid lb.players with _ | index
  · exact h
  · have hidx := findIndex_lt hf
    have hlen := length_eraseAt hidx
    dsimp only
    by_cases hs : lb.state = LobbyState.playing
    · rw [if_pos hs]
      split_ifs with ha
      · intro hstate
        cases hstate
      · intro _
        show removeCti lb.currentTurnIndex index (eraseAt lb.players index).length <
          max 1 (eraseAt lb.players index).length
        have hin := h hs
        have hplus : (eraseAt lb.players index).length + 1 = lb.players.length := by
          omega
        apply removeCti_lt
        · rw [hplus]
          exact hin
        · omega
    · rw [if_neg hs]
      intro hstate
      exact absurd hstate hs

lemma startGame_invS (syl : String) (now : Nat) (lb : Lobby) (h : turnInvS lb) :
    turnInvS (startGame syl now lb).2 := by
  unfold startGame
  dsimp only
  split_ifs with h1
  · exact h
  · apply nextTurn_invS
    intro _
    show (0 : Nat) < max 1 _
    omega

lemma handleTimeoutSync_invS (lb : Lobby) (h : turnInvS lb) :
    turnInvS (handleTimeoutSync lb) := by
  unfold handleTimeoutSync
  rcases hg : nth lb.players lb.currentTurnIndex with _ | p
  · exact fun hs => h hs
  · intro hs
    have := h hs
    show lb.currentTurnIndex < max 1 (setAt lb.players lb.currentTurnIndex _).length
    rw [length_setAt]
    exact this

lemma handleTimeoutDeferred_invS (now : Nat) (syl : String) (lb : Lobby) :
    turnInvS (handleTimeoutDeferred now syl lb) := by
  unfold handleTimeoutDeferred
  split_ifs with ha
  · intro hstate
    cases hstate
  · apply nextTurn_invS
    intro _
    have hlenf := List.length_filter_le (fun p => decide (0 < p.lives)) lb.players
    unfold getAlivePlayers at ha
    have hlen : 0 < lb.players.length := by omega
    have := Nat.mod_lt (lb.currentTurnIndex + 1) hlen
    show (lb.currentTurnIndex + 1) % lb.players.length < max 1 lb.players.length
    omega

lemma submitWordFull_invS (dict : List String) (now : Nat) (syl : String)
    (now2 : Nat) (lb : Lobby) (pid w : String) (h : turnInvS lb) :
    turnInvS (submitWordFull dict now syl now2 lb pid w).2 := by
  unfold submitWordFull
  rcases hr : submitWord dict now lb pid w with ⟨res, lb1⟩
  rcases res with _ | r
  · dsimp only
    apply nextTurn_invS
    intro _
    have hsucc : (submitWord dict now lb pid w).1 = SubmitResult.success := by
      rw [hr]
    have hnone := (submitWord_succ_check dict now lb pid w).mp hsucc
    have hparts := submitCheck_none_parts dict lb pid w hnone
    have hlb1 : lb1 = submitAccept now lb w := by
      have heq := submitWord_eq dict now lb pid w
      rw [hnone] at heq
      rw [hr] at heq
      injection heq with _ h2
    rcases submitAccept_parts now lb w with ⟨_, _, hcti, hlenA, _⟩
    have hlen0 : 0 < lb1.players.length := by
      rw [hlb1, hlenA]
      omega
    have := Nat.mod_lt (lb1.currentTurnIndex + 1) hlen0
    show (lb1.currentTurnIndex + 1) % lb1.players.length < max 1 lb1.players.length
    omega
  · dsimp only
    have hfail : (submitWord dict now lb pid w).1 ≠ SubmitResult.success := by
      rw [hr]
      simp
    have hlb := submitWord_fail_eq dict now lb pid w hfail
    rw [hr] at hlb
    rw [show lb1 = lb from hlb]
    exact h

lemma removePlayer_cti (now : Nat) (lb : Lobby) (pid : String) (index : Nat)
    (hs : lb.state = LobbyState.playing)
    (hf : findIndex pid lb.players = some index) :
    (removePlayer now lb pid).currentTurnIndex =
      removeCti lb.currentTurnIndex index (lb.players.length - 1) := by
  unfold removePlayer
  rw [hf]
  dsimp only
  rw [if_pos hs]
  have hlen := length_eraseAt (findIndex_lt hf)
  split_ifs with ha <;> dsimp only [endGameSync] <;> rw [hlen]

/-- C3: after each roster- or turn-pointer-mutating operation (`addPlayer`,
`removePlayer`, `startGame`, `nextTurn`, `handleTimeout`, `submitWord`), the
invariant `0 ≤ currentTurnIndex < players.length` holds whenever the roster
is non-empty and the state is `playing` (`turnInv`; the strengthened
`turnInvS`, which pins the index to 0 for an empty roster, is preserved by
every operation and implies it).  Moreover removing a seat whose index
precedes the active one decrements `currentTurnIndex` by one, and removing
the active seat wraps it modulo `max 1 (new roster size)`. -/
theorem turn_index_invariant :
    (∀ lb : Lobby, turnInvS lb → turnInv lb) ∧
    (∀ (now : Nat) (av col : String) (lb : Lobby) (pid pn : String),
      turnInvS lb → turnInvS (addPlayer now av col lb pid pn).2) ∧
    (∀ (now : Nat) (lb : Lobby) (pid : String),
      turnInvS lb → turnInvS (removePlayer now lb pid)) ∧
    (∀ (syl : String) (now : Nat) (lb : Lobby),
      turnInvS lb → turnInvS (startGame syl now lb).2) ∧
    (∀ (now : Nat) (syl : String) (lb : Lobby),
      turnInvS lb → turnInvS (nextTurn now syl lb)) ∧
    (∀ (now : Nat) (syl : String) (lb : Lobby),
      turnInvS lb → turnInvS (handleTimeoutFull now syl lb)) ∧
    (∀ (dict : List String) (now : Nat) (syl : String) (now2 : Nat)
      (lb : Lobby) (pid w : String),
      turnInvS lb → turnInvS (submitWordFull dict now syl now2 lb pid w).2) ∧
    (∀ (now : Nat) (lb : Lobby) (pid : String) (index : Nat),
      lb.state = LobbyState.playing → findIndex pid lb.players = some index →
      (index < lb.currentTurnIndex →
        (removePlayer now lb pid).currentTurnIndex = lb.currentTurnIndex - 1) ∧
      (index = lb.currentTurnIndex →
        (removePlayer now lb pid).currentTurnIndex =
          lb.currentTurnIndex % max 1 (lb.players.length - 1))) := by
  refine ⟨turnInvS_imp_turnInv, addPlayer_invS, removePlayer_invS,
    startGame_invS, nextTurn_invS,
    (fun now syl lb h => handleTimeoutDeferred_invS now syl (handleTimeoutSync lb)),
    submitWordFull_invS, ?_⟩
  intro now lb pid index hs hf
  have hcti := removePlayer_cti now lb pid index hs hf
  constructor
  · intro hlt
    rw [hcti]
    unfold removeCti
    rw [if_pos hlt]
  · intro heq
    rw [hcti]
    unfold removeCti
    rw [if_neg (by omega), if_pos heq]

/-- Witness for C3 at a concrete mid-game removal of the active player. -/
theorem turn_index_invariant_witness :
    turnInvS (removePlayer 5 wLobby "p1") ∧
    (removePlayer 5 wLobby "p1").currentTurnIndex =
      wLobby.currentTurnIndex % max 1 (wLobby.players.length - 1) :=
  ⟨turn_index_invariant.2.2.1 5 wLobby "p1" (fun _ => by decide),
   (turn_index_invariant.2.2.2.2.2.2.2 5 wLobby "p1" 0 (by decide)
      (by decide)).2 (by decide)⟩

/-! ## Claim C2: one outcome per turn (the submit-vs-timeout race) -/

/-- The two kinds of event that can land on a lobby while one turn is in
progress: the turn timer's expiry callback (server.js lines 415-423, firing
`handleTimeout`) and a `game:submit` from some client. -/
inductive TurnEvent where
  | timerExpire
  | submit (pid w : String) (now : Nat)
deriving DecidableEq

/-- The per-turn observable outcomes of the claim: the active player loses
a life to the timeout, or is awarded a submission score. -/
inductive TurnOutcome where
  | lifeLoss
  | scoreAward
deriving DecidableEq

/-- How many life losses a turn's outcome trace holds. -/
def countLifeLoss (outs : List TurnOutcome) : Nat :=
  (outs.filter (fun o => decide (o = TurnOutcome.lifeLoss))).length

/-- One event against the current lobby, together with the outcome it
produces.  The expiry callback only exists while the interval is registered
(`timerAlive`); it costs a life exactly when the active seat exists.  A
submission produces a score award exactly when `submitWord` accepts. -/
def turnStep (dict : List String) (lb : Lobby) : TurnEvent → Lobby × Option TurnOutcome
  | .timerExpire =>
      if lb.timerAlive then
        (handleTimeoutSync lb,
         if (nth lb.players lb.currentTurnIndex).isSome then some TurnOutcome.lifeLoss
         else none)
      else (lb, none)
  | .submit pid w now =>
      ((submitWord dict now lb pid w).2,
       if (submitWord dict now lb pid w).1 = SubmitResult.success then
         some TurnOutcome.scoreAward
       else none)

/-- Run a list of within-turn events, collecting the outcomes in order. -/
def turnRun (dict : List String) : Lobby → List TurnEvent → Lobby × List TurnOutcome
  | lb, [] => (lb, [])
  | lb, e :: es =>
      ((turnRun dict (turnStep dict lb e).1 es).1,
       (turnStep dict lb e).2.toList ++ (turnRun dict (turnStep dict lb e).1 es).2)

lemma countLifeLoss_append (a b : List TurnOutcome) :
    countLifeLoss (a ++ b) = countLifeLoss a + countLifeLoss b := by
  simp [countLifeLoss, List.filter_append]

lemma handleTimeoutSync_parts (lb : Lobby) :
    (handleTimeoutSync lb).state = lb.state ∧
    (handleTimeoutSync lb).turnLocked = true ∧
    (handleTimeoutSync lb).timerAlive = false := by
  unfold handleTimeoutSync
  rcases nth lb.players lb.currentTurnIndex with _ | p
  · exact ⟨rfl, rfl, rfl⟩
  · exact ⟨rfl, rfl, rfl⟩

lemma submitWord_succ_snd (dict : List String) (now : Nat) (lb : Lobby)
    (pid w : String)
    (h : (submitWord dict now lb pid w).1 = SubmitResult.success) :
    (submitWord dict now lb pid w).2 = submitAccept now lb w := by
  have hnone := (submitWord_succ_check dict now lb pid w).mp h
  rw [submitWord_eq, hnone]

/-- A locked turn in a playing lobby rejects every submission with the
late-submission reason. -/
lemma submitWord_locked (dict : List String) (now : Nat) (lb : Lobby)
    (pid w : String) (hs : lb.state = LobbyState.playing)
    (hl : lb.turnLocked = true) :
    (submitWord dict now lb pid w).1 =
      SubmitResult.failure "Too late! Time ran out" := by
  have hc : submitCheck dict lb pid w = some "Too late! Time ran out" := by
    unfold submitCheck
    rw [if_neg (show ¬ lb.state ≠ LobbyState.playing from fun hn => hn hs),
      if_pos hl]
  rw [submitWord_eq, hc]

/-- The invariant carried along a turn's event trace: the lobby stays
`playing`; at most one life loss, and only when the timer was alive at the
segment's start; a score award only when it started unlocked; never both
outcomes; `turnLocked` is never reset within a turn; and after a life loss
the turn ends locked. -/
lemma turnRun_props (dict : List String) :
    ∀ (events : List TurnEvent) (lb : Lobby), lb.state = LobbyState.playing →
      (turnRun dict lb events).1.state = LobbyState.playing ∧
      countLifeLoss (turnRun dict lb events).2 ≤ (if lb.timerAlive then 1 else 0) ∧
      (TurnOutcome.lifeLoss ∈ (turnRun dict lb events).2 → lb.timerAlive = true) ∧
      (TurnOutcome.scoreAward ∈ (turnRun dict lb events).2 → lb.turnLocked = false) ∧
      ¬(TurnOutcome.lifeLoss ∈ (turnRun dict lb events).2 ∧
        TurnOutcome.scoreAward ∈ (turnRun dict lb events).2) ∧
      (lb.turnLocked = true → (turnRun dict lb events).1.turnLocked = true) ∧
      (TurnOutcome.lifeLoss ∈ (turnRun dict lb events).2 →
        (turnRun dict lb events).1.turnLocked = true) := by
  intro events
  induction events with
  | nil =>
    intro lb hst
    refine ⟨hst, by simp [turnRun, countLifeLoss], by simp [turnRun],
      by simp [turnRun], by simp [turnRun], fun h => h, by simp [turnRun]⟩
  | cons e es ih =>
    intro lb hst
    rcases e with _ | ⟨pid, w, now⟩
    · by_cases ht : lb.timerAlive = true
      · have hstep : turnStep dict lb TurnEvent.timerExpire =
            (handleTimeoutSync lb,
             if (nth lb.players lb.currentTurnIndex).isSome then
               some TurnOutcome.lifeLoss else none) := by
          unfold turnStep
          rw [if_pos ht]
        rcases handleTimeoutSync_parts lb with ⟨hps, hpl, hpt⟩
        have ih' := ih (handleTimeoutSync lb) (by rw [hps]; exact hst)
        rcases ih' with ⟨i1, i2, i3, i4, i5, i6, i7⟩
        rw [hpt] at i2
        simp only [Bool.false_eq_true, if_false] at i2
        have hnoLL : TurnOutcome.lifeLoss ∉
            (turnRun dict (handleTimeoutSync lb) es).2 := fun hm => by
          rw [hpt] at i3
          exact absurd (i3 hm) (by simp)
        have hnoSA : TurnOutcome.scoreAward ∉
            (turnRun dict (handleTimeoutSync lb) es).2 := fun hm => by
          rw [hpl] at i4
          exact absurd (i4 hm) (by simp)
        have hlock := i6 hpl
        show _ ∧ _
        rw [turnRun, hstep]
        rcases hseat : (nth lb.players lb.currentTurnIndex).isSome with _ | _
        · dsimp only
          simp only [Bool.false_eq_true, if_false, Option.toList_none,
            List.nil_append]
          exact ⟨i1, by rw [ht]; simp only [eq_self_iff_true, if_true]; omega,
            fun hm => ht,
            fun hm => absurd hm hnoSA, fun ⟨hm, _⟩ => hnoLL hm,
            fun _ => hlock, fun hm => absurd hm hnoLL⟩
        · dsimp only
          simp only [eq_self_iff_true, if_true, Option.toList_some,
            List.singleton_append]
          refine ⟨i1, ?_, fun _ => ht, ?_, ?_, fun _ => hlock, fun _ => hlock⟩
          · rw [ht]
            simp only [eq_self_iff_true, if_true]
            have hcons : countLifeLoss (TurnOutcome.lifeLoss ::
                (turnRun dict (handleTimeoutSync lb) es).2) =
                countLifeLoss (turnRun dict (handleTimeoutSync lb) es).2 + 1 := by
              simp [countLifeLoss]
            omega
          · intro hm
            rcases List.mem_cons.mp hm with hm | hm
            · cases hm
            · exact absurd hm hnoSA
          · rintro ⟨_, hsa⟩
            rcases List.mem_cons.mp hsa with hm | hm
            · cases hm
            · exact hnoSA hm
      · have hstep : turnStep dict lb TurnEvent.timerExpire = (lb, none) := by
          unfold turnStep
          rw [if_neg ht]
        have ih' := ih lb hst
        rcases ih' with ⟨i1, i2, i3, i4, i5, i6, i7⟩
        show _ ∧ _
        rw [turnRun, hstep]
        dsimp only
        simp only [Option.toList_none, List.nil_append]
        exact ⟨i1, i2, i3, i4, i5, i6, i7⟩
    · have hstep : turnStep dict lb (TurnEvent.submit pid w now) =
          ((submitWord dict now lb pid w).2,
           if (submitWord dict now lb pid w).1 = SubmitResult.success then
             some TurnOutcome.scoreAward
           else none) := rfl
      by_cases hsu : (submitWord dict now lb pid w).1 = SubmitResult.success
      · have hnone := (submitWord_succ_check dict now lb pid w).mp hsu
        have hparts := submitCheck_none_parts dict lb pid w hnone
        have hsnd := submitWord_succ_snd dict now lb pid w hsu
        rcases submitAccept_parts now lb w with ⟨has, hal, _, _, _⟩
        have hat : (submitWord dict now lb pid w).2.timerAlive = false := by
          rw [hsnd]
          exact submitAccept_timer now lb w hparts.2.2
        have ih' := ih (submitWord dict now lb pid w).2
          (by rw [hsnd, has]; exact hst)
        rcases ih' with ⟨i1, i2, i3, i4, i5, i6, i7⟩
        have hnoLL : TurnOutcome.lifeLoss ∉
            (turnRun dict (submitWord dict now lb pid w).2 es).2 := fun hm => by
          have := i3 hm
          rw [hat] at this
          cases this
        show _ ∧ _
        rw [turnRun, hstep]
        dsimp only
        rw [if_pos hsu]
        simp only [Option.toList_some, List.singleton_append]
        refine ⟨i1, ?_, ?_, fun _ => hparts.2.1, ?_, ?_, ?_⟩
        · have : countLifeLoss (TurnOutcome.scoreAward ::
              (turnRun dict (submitWord dict now lb pid w).2 es).2) =
              countLifeLoss (turnRun dict (submitWord dict now lb pid w).2 es).2 := by
            simp [countLifeLoss]
          rw [this]
          have h0 : countLifeLoss
              (turnRun dict (submitWord dict now lb pid w).2 es).2 = 0 := by
            rw [hat] at i2
            simpa using i2
          rw [h0]
          split <;> omega
        · intro hm
          rcases List.mem_cons.mp hm with hm | hm
          · cases hm
          · exact absurd hm hnoLL
        · rintro ⟨hll, _⟩
          rcases List.mem_cons.mp hll with hm | hm
          · cases hm
          · exact hnoLL hm
        · intro hl
          rw [hparts.2.1] at hl
          cases hl
        · intro hm
          rcases List.mem_cons.mp hm with hm | hm
          · cases hm
          · exact absurd hm hnoLL
      · have hfail := submitWord_fail_eq dict now lb pid w hsu
        have ih' := ih lb hst
        rcases ih' with ⟨i1, i2, i3, i4, i5, i6, i7⟩
        show _ ∧ _
        rw [turnRun, hstep]
        dsimp only
        rw [if_neg hsu]
        simp only [Option.toList_none, List.nil_append]
        rw [hfail]
        exact ⟨i1, i2, i3, i4, i5, i6, i7⟩

/-- C2: within one turn (events between one `nextTurn` and the next), the
timeout life-loss and the submission score award are mutually exclusive —
never both — and at most one life is lost; once the timeout has fired (a
life loss occurred), the turn stays locked, so any in-flight submission is a
no-op rejection with the late-submission reason.  (When a submission wins
the race instead, the accepted `submitWord` cancels the interval, so the
expiry callback never runs at all — the model's `timerExpire` is a no-op
once `timerAlive` is false.) -/
theorem turn_outcome_exclusive (dict : List String) (lb : Lobby)
    (events : List TurnEvent) (hstate : lb.state = LobbyState.playing) :
    ¬(TurnOutcome.lifeLoss ∈ (turnRun dict lb events).2 ∧
      TurnOutcome.scoreAward ∈ (turnRun dict lb events).2) ∧
    countLifeLoss (turnRun dict lb events).2 ≤ 1 ∧
    (TurnOutcome.lifeLoss ∈ (turnRun dict lb events).2 →
      ∀ (pid w : String) (now : Nat),
        (submitWord dict now (turnRun dict lb events).1 pid w).1 =
          SubmitResult.failure "Too late! Time ran out") := by
  obtain ⟨hst, hcnt, _, _, hboth, _, hlocked⟩ := turnRun_props dict events lb hstate
  refine ⟨hboth, ?_, ?_⟩
  · cases hb : lb.timerAlive <;> rw [hb] at hcnt <;> simp at hcnt <;> omega
  · intro hmem pid w now
    exact submitWord_locked dict now _ pid w hst (hlocked hmem)

/-- Witness for C2: a concrete turn in which the timer fires first and a
late submission is then rejected. -/
theorem turn_outcome_exclusive_witness :
    ¬(TurnOutcome.lifeLoss ∈
        (turnRun wDict wLobby [TurnEvent.timerExpire,
          TurnEvent.submit "p1" "batata" 3]).2 ∧
      TurnOutcome.scoreAward ∈
        (turnRun wDict wLobby [TurnEvent.timerExpire,
          TurnEvent.submit "p1" "batata" 3]).2) ∧
    countLifeLoss (turnRun wDict wLobby [TurnEvent.timerExpire,
      TurnEvent.submit "p1" "batata" 3]).2 ≤ 1 ∧
    (TurnOutcome.lifeLoss ∈ (turnRun wDict wLobby [TurnEvent.timerExpire,
        TurnEvent.submit "p1" "batata" 3]).2 →
      ∀ (pid w : String) (now : Nat),
        (submitWord wDict now (turnRun wDict wLobby [TurnEvent.timerExpire,
          TurnEvent.submit "p1" "batata" 3]).1 pid w).1 =
          SubmitResult.failure "Too late! Time ran out") :=
  turn_outcome_exclusive wDict wLobby
    [TurnEvent.timerExpire, TurnEvent.submit "p1" "batata" 3] (by decide)

/-! ## Claim C5: the waiting → playing transition -/

/-- A third player who is connected but not ready. -/
def wP3 : Player := { wP1 with id := "p3", name := "Cat", isReady := false }

/-- A waiting lobby with two ready players and one non-ready player. -/
def c5Lobby : Lobby :=
  { wLobby with
    state := LobbyState.waiting, players := [wP1, wP2, wP3],
    timerAlive := false, timerValue := 0, currentSyllable := "" }

/-- Counterexample to C5 as stated: the host starts the game with two ready
players and one non-ready player; the start succeeds, but the non-ready
player `p3` does NOT remain in the lobby's roster — `startGame` reassigns
`this.players` to the ready players only, dropping the spectator's seat. -/
theorem startGame_roster_counterexample :
    c5Lobby.players.any (fun p => p.id == "p3") = true ∧
    (gameStart "p1" "ta" 7 c5Lobby).1 = true ∧
    (gameStart "p1" "ta" 7 c5Lobby).2.players.any (fun p => p.id == "p3") = false := by
  decide

lemma nth_map (f : α → β) (l : List α) (n : Nat) :
    nth (l.map f) n = (nth l n).map f := by
  induction l generalizing n with
  | nil => rfl
  | cons a as ih =>
    cases n with
    | zero => rfl
    | succ m => exact ih m

lemma skipDead_zero (ps : List Player) (fuel : Nat) (p : Player)
    (hp : nth ps 0 = some p) (hl : ¬ p.lives ≤ 0) : skipDead ps fuel 0 = 0 := by
  cases fuel with
  | zero => rfl
  | succ n =>
    unfold skipDead
    rw [hp]
    dsimp only
    rw [if_neg hl]

/-- C5 (amended): the start succeeds only when host-initiated with at least
two ready-and-connected players; those players — and only those — make up
the game roster, each reset to `lives = startLives`, `score = 0`,
`wordsCompleted = 0`; on entry `usedWords` is reset and
`currentTurnIndex = 0`.  Contrary to the original claim, the non-ready or
disconnected players are removed from the lobby's roster (they keep only
their socket-room membership as spectators).  The hypothesis
`startLives ≥ 1` is the server's own invariant (default 3, clamped into
[1,5]). -/
theorem startGame_amended (rid syl : String) (now : Nat) (lb : Lobby)
    (hlives : 1 ≤ lb.settings.startLives) :
    ((gameStart rid syl now lb).1 = true →
      lb.hostId = rid ∧
      2 ≤ (lb.players.filter (fun p => p.isReady && p.isConnected)).length ∧
      (gameStart rid syl now lb).2.state = LobbyState.playing ∧
      (gameStart rid syl now lb).2.usedWords = [] ∧
      (gameStart rid syl now lb).2.currentTurnIndex = 0 ∧
      (gameStart rid syl now lb).2.players =
        (lb.players.filter (fun p => p.isReady && p.isConnected)).map
          (fun p => { p with
                      lives := lb.settings.startLives, currentInput := "",
                      score := 0, wordsCompleted := 0 })) ∧
    ((gameStart rid syl now lb).1 = false → (gameStart rid syl now lb).2 = lb) := by
  unfold gameStart startGame
  by_cases hh : lb.hostId ≠ rid
  · rw [if_pos hh]
    exact ⟨(fun h => nomatch h), fun _ => rfl⟩
  rw [if_neg hh]
  by_cases hl : lb.players.length < 2
  · rw [if_pos hl]
    exact ⟨(fun h => nomatch h), fun _ => rfl⟩
  rw [if_neg hl]
  dsimp only
  by_cases hr : (lb.players.filter (fun p => p.isReady && p.isConnected)).length < 2
  · rw [if_pos hr]
    exact ⟨(fun h => nomatch h), fun _ => rfl⟩
  rw [if_neg hr]
  refine ⟨fun _ => ⟨of_not_not hh, by omega, rfl, rfl, ?_, rfl⟩, (fun h => nomatch h)⟩
  show skipDead _ _ 0 = 0
  have h0 : 0 < (lb.players.filter (fun p => p.isReady && p.isConnected)).length := by
    omega
  rcases nth_of_lt h0 with ⟨q, hq⟩
  apply skipDead_zero _ _
    ({ q with lives := lb.settings.startLives, currentInput := "", score := 0,
              wordsCompleted := 0 })
  · show nth (List.map _ _) 0 = _
    rw [nth_map, hq]
    rfl
  · dsimp only
    omega

/-- Witness for C5's amended statement at the concrete three-player lobby. -/
theorem startGame_amended_witness :
    ((gameStart "p1" "ta" 7 c5Lobby).1 = true →
      c5Lobby.hostId = "p1" ∧
      2 ≤ (c5Lobby.players.filter (fun p => p.isReady && p.isConnected)).length ∧
      (gameStart "p1" "ta" 7 c5Lobby).2.state = LobbyState.playing ∧
      (gameStart "p1" "ta" 7 c5Lobby).2.usedWords = [] ∧
      (gameStart "p1" "ta" 7 c5Lobby).2.currentTurnIndex = 0 ∧
      (gameStart "p1" "ta" 7 c5Lobby).2.players =
        (c5Lobby.players.filter (fun p => p.isReady && p.isConnected)).map
          (fun p => { p with
                      lives := c5Lobby.settings.startLives,
                      currentInput := "", score := 0, wordsCompleted := 0 })) ∧
    ((gameStart "p1" "ta" 7 c5Lobby).1 = false →
      (gameStart "p1" "ta" 7 c5Lobby).2 = c5Lobby) :=
  startGame_amended "p1" "ta" 7 c5Lobby (by decide)

/-! ## Claim C6: settings bounds -/

/-- A stored settings number lies within `[lo, hi]` (`NaN` never does). -/
def jsInBounds (lo hi : Int) : JsNumber → Prop
  | .num v => lo ≤ v ∧ v ≤ hi
  | .nan => False

/-- The server-side bounds of the specification on the settings object. -/
def settingsInBounds (s : SettingsState) : Prop :=
  jsInBounds 2 12 s.maxPlayers ∧ jsInBounds 1 5 s.startLives ∧
  jsInBounds 5 30 s.turnTime ∧ jsInBounds 2 5 s.minWordLength

/-- The constructor's default settings object (8, 3, 10, 2). -/
def defaultSettingsState (isPublic : Bool) : SettingsState :=
  { maxPlayers := JsNumber.num 8, startLives := JsNumber.num 3,
    turnTime := JsNumber.num 10, minWordLength := JsNumber.num 2,
    isPublic := isPublic }

/-- A hostile request whose `maxPlayers` is a truthy non-numeric value,
for example the string `"abc"`. -/
def c6BadReq : SettingsRequest :=
  { maxPlayers := SettingsVal.nonNumeric, startLives := SettingsVal.absent,
    turnTime := SettingsVal.absent, minWordLength := SettingsVal.absent,
    isPublic := none }

/-- Counterexample to C6 as stated: the handler has no type guard on its
numeric fields, so a host-sent truthy non-numeric `maxPlayers` (e.g. the
string `"abc"`) passes the `if (settings.maxPlayers)` truthiness check,
`Math.max(2, "abc")` coerces it to `NaN`, `Math.min(12, NaN)` stays `NaN`,
and `NaN` is assigned into `lobby.settings.maxPlayers`: the resulting
settings violate the claimed bound `maxPlayers ∈ [2, 12]`. -/
theorem settings_nan_counterexample :
    (lobbySettingsEvent "h" "h" c6BadReq (defaultSettingsState true)).maxPlayers =
      JsNumber.nan ∧
    ¬ settingsInBounds (lobbySettingsEvent "h" "h" c6BadReq
        (defaultSettingsState true)) :=
  ⟨rfl, fun h => h.1⟩

lemma applyNumField_bounds (cur : JsNumber) (req : SettingsVal) (lo hi : Int)
    (hcur : jsInBounds lo hi cur) (hlohi : lo ≤ hi)
    (hreq : req ≠ SettingsVal.nonNumeric) :
    jsInBounds lo hi (applyNumField cur req lo hi) := by
  rcases req with _ | v | _
  · exact hcur
  · exact ⟨by omega, by omega⟩
  · exact absurd rfl hreq

/-- C6 (amended): a host-applied settings update whose present fields are
genuinely numeric always lands inside the server-side bounds — maxPlayers
∈ [2,12], startLives ∈ [1,5], turnTime ∈ [5,30], minWordLength ∈ [2,5] —
and a field absent (or falsy) in the request is left unchanged.  Contrary
to the original claim, this does NOT hold regardless of the requested
values: the handler has no type guard, so a truthy non-numeric field
value is coerced to `NaN` by `Math.max` and stored, breaching the bounds
(`settings_nan_counterexample`).  The in-bounds hypothesis is established
by the constructor's defaults (8, 3, 10, 2). -/
theorem lobby_settings_bounded_amended (hostId rid : String)
    (req : SettingsRequest) (s : SettingsState)
    (hb : settingsInBounds s)
    (hmp : req.maxPlayers ≠ SettingsVal.nonNumeric)
    (hsl : req.startLives ≠ SettingsVal.nonNumeric)
    (htt : req.turnTime ≠ SettingsVal.nonNumeric)
    (hmw : req.minWordLength ≠ SettingsVal.nonNumeric) :
    settingsInBounds (lobbySettingsEvent hostId rid req s) ∧
    (req.maxPlayers = SettingsVal.absent →
      (lobbySettingsEvent hostId rid req s).maxPlayers = s.maxPlayers) ∧
    (req.startLives = SettingsVal.absent →
      (lobbySettingsEvent hostId rid req s).startLives = s.startLives) ∧
    (req.turnTime = SettingsVal.absent →
      (lobbySettingsEvent hostId rid req s).turnTime = s.turnTime) ∧
    (req.minWordLength = SettingsVal.absent →
      (lobbySettingsEvent hostId rid req s).minWordLength = s.minWordLength) := by
  obtain ⟨b1, b2, b3, b4⟩ := hb
  unfold lobbySettingsEvent
  by_cases hh : hostId = rid
  · rw [if_pos hh]
    dsimp only [applySettings]
    refine ⟨⟨?_, ?_, ?_, ?_⟩, ?_, ?_, ?_, ?_⟩
    · exact applyNumField_bounds _ _ _ _ b1 (by norm_num) hmp
    · exact applyNumField_bounds _ _ _ _ b2 (by norm_num) hsl
    · exact applyNumField_bounds _ _ _ _ b3 (by norm_num) htt
    · exact applyNumField_bounds _ _ _ _ b4 (by norm_num) hmw
    · intro h
      show applyNumField _ _ _ _ = _
      rw [h]
      rfl
    · intro h
      show applyNumField _ _ _ _ = _
      rw [h]
      rfl
    · intro h
      show applyNumField _ _ _ _ = _
      rw [h]
      rfl
    · intro h
      show applyNumField _ _ _ _ = _
      rw [h]
      rfl
  · rw [if_neg hh]
    exact ⟨⟨b1, b2, b3, b4⟩, fun _ => rfl, fun _ => rfl, fun _ => rfl,
      fun _ => rfl⟩

/-- A concrete hostile-but-numeric request: out-of-range values and an
absent field. -/
def c6Req : SettingsRequest :=
  { maxPlayers := SettingsVal.numeric 99, startLives := SettingsVal.numeric (-3),
    turnTime := SettingsVal.numeric 1000, minWordLength := SettingsVal.absent,
    isPublic := some false }

/-- Witness for C6's amended statement at the concrete request. -/
theorem lobby_settings_bounded_amended_witness :
    settingsInBounds (lobbySettingsEvent "p1" "p1" c6Req
      (defaultSettingsState true)) ∧
    (c6Req.maxPlayers = SettingsVal.absent →
      (lobbySettingsEvent "p1" "p1" c6Req (defaultSettingsState true)).maxPlayers =
        (defaultSettingsState true).maxPlayers) ∧
    (c6Req.startLives = SettingsVal.absent →
      (lobbySettingsEvent "p1" "p1" c6Req (defaultSettingsState true)).startLives =
        (defaultSettingsState true).startLives) ∧
    (c6Req.turnTime = SettingsVal.absent →
      (lobbySettingsEvent "p1" "p1" c6Req (defaultSettingsState true)).turnTime =
        (defaultSettingsState true).turnTime) ∧
    (c6Req.minWordLength = SettingsVal.absent →
      (lobbySettingsEvent "p1" "p1" c6Req (defaultSettingsState true)).minWordLength =
        (defaultSettingsState true).minWordLength) :=
  lobby_settings_bounded_amended "p1" "p1" c6Req (defaultSettingsState true)
    ⟨⟨by decide, by decide⟩, ⟨by decide, by decide⟩, ⟨by decide, by decide⟩,
     ⟨by decide, by decide⟩⟩
    (by decide) (by decide) (by decide) (by decide)

/-! ## Claim C8: the sliding-window rate limiter -/

lemma pruneOld_eq_filter (c : Int) (ts : List Int) (h : ts.Pairwise (· ≤ ·)) :
    pruneOld c ts = ts.filter (fun t => !decide (t < c)) := by
  induction ts with
  | nil => rfl
  | cons t rest ih =>
    rcases List.pairwise_cons.mp h with ⟨hall, hrest⟩
    unfold pruneOld
    by_cases hlt : t < c
    · rw [if_pos hlt, ih hrest]
      simp [List.filter_cons, hlt]
    · rw [if_neg hlt]
      have hkeep : rest.filter (fun t => !decide (t < c)) = rest := by
        apply List.filter_eq_self.mpr
        intro a ha
        have := hall a ha
        simp only [Bool.not_eq_true']
        simp only [decide_eq_false_iff_not]
        omega
      simp [List.filter_cons, hlt, hkeep]

/-- C8: for a `(connection, event)` key whose recorded timestamps are in
arrival (hence non-decreasing) order, an attempt at time `now` is rejected
exactly when the configured cap many timestamps still lie within the
trailing window `[now - windowMs, now]`; a rejected attempt appends no
timestamp (the stored list is only pruned of expired entries), while an
accepted attempt appends `now`.  In particular the (N+1)-th attempt while N
recorded timestamps are in the window is rejected, and once the window
slides past the oldest timestamps a new attempt is accepted again. -/
theorem rate_limiter_window (now windowMs : Int) (maxRequests : Nat)
    (ts : List Int) (hsorted : ts.Pairwise (· ≤ ·)) :
    ((isRateLimited now windowMs maxRequests ts).1 = true ↔
      maxRequests ≤ (ts.filter (fun t => !decide (t < now - windowMs))).length) ∧
    ((isRateLimited now windowMs maxRequests ts).1 = true →
      (isRateLimited now windowMs maxRequests ts).2 =
        ts.filter (fun t => !decide (t < now - windowMs))) ∧
    ((isRateLimited now windowMs maxRequests ts).1 = false →
      (isRateLimited now windowMs maxRequests ts).2 =
        ts.filter (fun t => !decide (t < now - windowMs)) ++ [now]) := by
  unfold isRateLimited
  rw [pruneOld_eq_filter _ _ hsorted]
  by_cases hc : maxRequests ≤
      (ts.filter (fun t => !decide (t < now - windowMs))).length
  · rw [if_pos hc]
    exact ⟨by simpa using hc, fun _ => rfl, (fun h => nomatch h)⟩
  · rw [if_neg hc]
    refine ⟨?_, (fun h => nomatch h), fun _ => rfl⟩
    constructor
    · intro h
      cases h
    · intro h
      exact absurd h hc

/-- Witness for C8: cap 3 reached inside the window at a concrete key. -/
theorem rate_limiter_window_witness :
    ((isRateLimited 5 10 3 [0, 1, 2]).1 = true ↔
      3 ≤ (([0, 1, 2] : List Int).filter (fun t => !decide (t < 5 - 10))).length) ∧
    ((isRateLimited 5 10 3 [0, 1, 2]).1 = true →
      (isRateLimited 5 10 3 [0, 1, 2]).2 =
        ([0, 1, 2] : List Int).filter (fun t => !decide (t < 5 - 10))) ∧
    ((isRateLimited 5 10 3 [0, 1, 2]).1 = false →
      (isRateLimited 5 10 3 [0, 1, 2]).2 =
        ([0, 1, 2] : List Int).filter (fun t => !decide (t < 5 - 10)) ++ [5]) :=
  rate_limiter_window 5 10 3 [0, 1, 2] (by decide)

/-! ## Claim C9: lobby codes -/

/-- A first concrete lobby created with a fixed random draw. -/
def cx9A : Lobby := createLobby (fun _ => (0 : Fin 32)) "h1" "Ann" "RoomA" true 0

/-- A second, distinct live lobby created with the same random draw. -/
def cx9B : Lobby := createLobby (fun _ => (0 : Fin 32)) "h2" "Ben" "RoomB" true 3

/-- Counterexample to C9's uniqueness guarantee: the constructor consults no
registry and never regenerates, so two distinct live lobbies can carry the
same code — here both draw `"AAAAAA"`. -/
theorem lobby_code_collision_counterexample :
    cx9A.code = cx9B.code ∧ cx9A ≠ cx9B ∧
    ¬ codesUnique (registryAdd (registryAdd [] cx9A) cx9B) := by
  refine ⟨by decide, by decide, fun h => ?_⟩
  have h' : (registryAdd (registryAdd [] cx9A) cx9B) = [cx9A, cx9B] := rfl
  rw [h'] at h
  rcases List.pairwise_cons.mp h with ⟨hall, _⟩
  exact hall cx9B (by simp) (by decide)

/-- Every index into the 32-character code alphabet lands in it. -/
lemma lobbyCodeAlphabet_getD_mem (i : Fin 32) :
    lobbyCodeAlphabet.getD i.val 'A' ∈ lobbyCodeAlphabet := by
  revert i
  decide

/-- C9 (amended): every created lobby's code has exactly 6 characters, all
drawn from the alphabet `ABCDEFGHJKLMNPQRSTUVWXYZ23456789`, which excludes
the visually ambiguous glyphs I, O, 0 and 1.  Contrary to the original
claim, no uniqueness is enforced among live lobbies: the constructor never
checks the registry nor regenerates on collision
(`lobby_code_collision_counterexample`). -/
theorem lobby_code_format (rand : Fin 6 → Fin 32)
    (hostId hostName lobbyName : String) (isPub : Bool) (now : Nat) :
    (createLobby rand hostId hostName lobbyName isPub now).code.length = 6 ∧
    (∀ c ∈ (createLobby rand hostId hostName lobbyName isPub now).code.data,
      c ∈ lobbyCodeAlphabet) ∧
    'I' ∉ lobbyCodeAlphabet ∧ 'O' ∉ lobbyCodeAlphabet ∧
    '0' ∉ lobbyCodeAlphabet ∧ '1' ∉ lobbyCodeAlphabet := by
  refine ⟨?_, ?_, by decide, by decide, by decide, by decide⟩
  · show (generateLobbyCode rand).length = 6
    unfold generateLobbyCode
    show (List.ofFn fun i : Fin 6 => lobbyCodeAlphabet.getD (rand i).val 'A').length = 6
    rw [List.length_ofFn]
  · intro c hc
    have hc' : c ∈ List.ofFn fun i : Fin 6 =>
        lobbyCodeAlphabet.getD (rand i).val 'A' := hc
    rcases (List.mem_ofFn _ _).mp hc' with ⟨i, hi⟩
    rw [← hi]
    exact lobbyCodeAlphabet_getD_mem (rand i)

/-! ## Claim C10: addPlayer on an already-seated player -/

/-- A full waiting lobby (`maxPlayers = 2` with two seated players). -/
def c10Lobby : Lobby :=
  { wLobby with
    state := LobbyState.waiting, timerAlive := false, timerValue := 0,
    settings := { wLobby.settings with maxPlayers := 2 } }

/-- Counterexample to C10 as stated: in a lobby at capacity whose roster
already contains the player, `addPlayer` returns `false`, not `true` — the
capacity check runs before the already-seated check.  (The lobby is still
left unchanged.) -/
theorem addPlayer_seated_counterexample :
    c10Lobby.players.any (fun p => p.id == "p1") = true ∧
    (addPlayer 99 "A" "red" c10Lobby "p1" "Ann").1 = false ∧
    (addPlayer 99 "A" "red" c10Lobby "p1" "Ann").2 = c10Lobby := by
  decide

/-- C10 (amended): when the roster already contains a player with the given
id, `addPlayer` leaves the lobby completely unchanged — no duplicate seat,
no field changes, `lastActivity` untouched — and returns `true` exactly
when the roster is strictly below `maxPlayers` (the capacity check precedes
the membership check, so a full lobby yields `false`). -/
theorem addPlayer_seated_amended (now : Nat) (av col : String) (lb : Lobby)
    (pid pn : String) (hmem : lb.players.any (fun p => p.id == pid) = true) :
    (addPlayer now av col lb pid pn).2 = lb ∧
    (addPlayer now av col lb pid pn).1 =
      decide ((lb.players.length : Int) < lb.settings.maxPlayers) := by
  unfold addPlayer
  by_cases hcap : (lb.settings.maxPlayers : Int) ≤ lb.players.length
  · rw [if_pos hcap]
    refine ⟨rfl, ?_⟩
    have : ¬ ((lb.players.length : Int) < lb.settings.maxPlayers) := by omega
    simp [this]
  · rw [if_neg hcap]
    rw [if_pos hmem]
    refine ⟨rfl, ?_⟩
    have : (lb.players.length : Int) < lb.settings.maxPlayers := by omega
    simp [this]

/-- Witness for C10's amended statement: a seated player in a non-full
lobby. -/
theorem addPlayer_seated_amended_witness :
    (addPlayer 99 "A" "red" wLobby "p1" "Ann").2 = wLobby ∧
    (addPlayer 99 "A" "red" wLobby "p1" "Ann").1 =
      decide ((wLobby.players.length : Int) < wLobby.settings.maxPlayers) :=
  addPlayer_seated_amended 99 "A" "red" wLobby "p1" "Ann" (by decide)

end BombParty
